import Mathlib

/-!
Verification of the `RedisCalculator` estimation/simulation module
(`src/calculator.py`).

The module is a set of pure arithmetic functions.  Python int/float
arithmetic is embedded into `ℚ` (exact rational arithmetic), except for
`calculate_latency`, whose `math.log2` is embedded into `ℝ` via
`Real.logb 2`.  The pandas `DataFrame` returned by `simulate_memory_usage`
is a list of (timestamp, memory) samples; `np.linspace(0, X, num=100)`
produces the 100 points `i * X / 99` for `i = 0, …, 99`.
-/

namespace RedisCalculator

/-- Source constant `MEMORY_OVERHEAD_PER_KEY = 150` (bytes). -/
def MEMORY_OVERHEAD_PER_KEY : ℚ := 150

/-- Source constant `BASE_MEMORY = 50 * 1024 * 1024` (50 MiB). -/
def BASE_MEMORY : ℚ := 50 * 1024 * 1024

/-- Source constant `MAX_KEYS_PER_CPU_CORE = 1000000`. -/
def MAX_KEYS_PER_CPU_CORE : ℚ := 1000000

/-- Source constant `BASE_LATENCY = 0.2` (ms); lives in `ℝ` like the latency formula. -/
noncomputable def BASE_LATENCY : ℝ := 0.2

/-- Source function `RedisCalculator.calculate_memory` from `src/calculator.py`. -/
def calculate_memory (avg_object_size num_keys : ℚ) : ℚ :=
  let data_size := avg_object_size * num_keys
  let overhead := MEMORY_OVERHEAD_PER_KEY * num_keys
  data_size + overhead + BASE_MEMORY

/-- Source function `RedisCalculator.calculate_latency` from `src/calculator.py`.
`math.log2 x` is `Real.logb 2 x`; the Python guard `if tps else 0` tests
truthiness of `tps`, i.e. `tps ≠ 0`. -/
noncomputable def calculate_latency (avg_object_size num_keys : ℝ) (tps : ℝ) : ℝ :=
  let size_factor := Real.logb 2 (max 1 (avg_object_size / 1024))
  let load_factor := if tps ≠ 0 then Real.logb 2 (max 1 (tps / 1000)) else 0
  let keys_factor := Real.logb 2 (max 1 (num_keys / 100000))
  BASE_LATENCY + 0.1 * size_factor + 0.2 * load_factor + 0.1 * keys_factor

/-- Source function `RedisCalculator.calculate_cpu_cores` from `src/calculator.py`.
`math.ceil` is `Int.ceil`; `if tps else 0` tests `tps ≠ 0`. -/
def calculate_cpu_cores (num_keys tps : ℚ) : ℤ :=
  let cores_by_keys : ℤ := ⌈num_keys / MAX_KEYS_PER_CPU_CORE⌉
  let cores_by_tps : ℤ := if tps ≠ 0 then ⌈tps / 50000⌉ else 0
  max 1 (max cores_by_keys cores_by_tps)

/-- Python `f-string` rendering with two decimal places (`:.2f`) of a
nonnegative rational.  Ties are rounded half-up; the inputs reasoned about
below are exact multiples of 1/100, where every rounding mode agrees. -/
def fmt2 (q : ℚ) : String :=
  let n : ℤ := round (q * 100)
  let frac := (n % 100).toNat
  toString (n / 100) ++ "." ++ (if frac < 10 then "0" else "") ++ toString frac

/-- The unit-selection loop of `format_memory_size`: walk the unit list,
dividing by 1024 until the value drops below 1024, falling through to PB. -/
def format_memory_size_aux : List String → ℚ → String
  | [], bytes_size => fmt2 bytes_size ++ " PB"
  | unit :: units, bytes_size =>
    if bytes_size < 1024 then fmt2 bytes_size ++ " " ++ unit
    else format_memory_size_aux units (bytes_size / 1024)

/-- Source function `RedisCalculator.format_memory_size` from `src/calculator.py`. -/
def format_memory_size (bytes_size : ℚ) : String :=
  format_memory_size_aux ["B", "KB", "MB", "GB", "TB"] bytes_size

/-- One sample of the simulated series: a row of the returned DataFrame,
timestamp in hours and memory in bytes. -/
structure Sample where
  timestamp : ℚ
  memory : ℚ
deriving DecidableEq, Repr

/-- Timestamps `np.linspace(0, duration_hours * 3600, num=100)`: point `i` is
`i * (duration_hours * 3600) / 99`. -/
def timestamps (duration_hours : ℚ) : List ℚ :=
  (List.range 100).map fun i : ℕ => (i : ℚ) * (duration_hours * 3600) / 99

/-- Python `str.startswith`: `p` is a character-wise prefix of `s`. -/
def strStartsWith (s p : String) : Bool :=
  p.data.isPrefixOf s.data

/-- The body of the `for t in timestamps` loop in `simulate_memory_usage`:
given the carried `current_keys` and the timestamp `t` (seconds), the value
assigned to `current_keys` at the end of the iteration. -/
def nextKeys (avg_object_size tps ttl : ℚ) (eviction_policy : String)
    (initial_keys current_keys t : ℚ) : ℚ :=
  let new_keys := tps * t
  let expired_keys := if ttl > 0 then tps * max 0 (t - ttl) else 0
  let expired_keys :=
    if eviction_policy ≠ "noeviction" then
      let eviction_factor : ℚ :=
        if strStartsWith eviction_policy "allkeys" then 0.8 else 0.9
      if current_keys * avg_object_size > BASE_MEMORY * 10 then
        expired_keys + current_keys * (1 - eviction_factor)
      else expired_keys
    else expired_keys
  max 0 (initial_keys + new_keys - expired_keys)

/-- The sequential loop of `simulate_memory_usage`: fold over the timestamp
list carrying `current_keys`, recording `(t / 3600, memory)` per iteration
(the DataFrame pairs `timestamps / 3600` with the appended memory values). -/
def simLoop (avg_object_size tps ttl : ℚ) (eviction_policy : String)
    (initial_keys : ℚ) : ℚ → List ℚ → List Sample
  | _, [] => []
  | current_keys, t :: ts =>
    let ck := nextKeys avg_object_size tps ttl eviction_policy initial_keys current_keys t
    ⟨t / 3600, calculate_memory avg_object_size ck⟩ ::
      simLoop avg_object_size tps ttl eviction_policy initial_keys ck ts

/-- Source function `RedisCalculator.simulate_memory_usage` from `src/calculator.py`
(`duration_hours`, defaulted to 24 in Python, is an explicit argument). -/
def simulate_memory_usage (avg_object_size initial_keys tps ttl : ℚ)
    (eviction_policy : String) (duration_hours : ℚ) : List Sample :=
  simLoop avg_object_size tps ttl eviction_policy initial_keys initial_keys
    (timestamps duration_hours)

/-- Modelled from the spec: reading "(b) treat it as 100 independent
evaluations" of `simulate_memory_usage`, in which `current_keys` equals
`initial_keys` whenever the eviction adjustment reads it.  Used only as the
comparison point for the refinement claim about the sequential loop. -/
def simulate_memory_usage_indep (avg_object_size initial_keys tps ttl : ℚ)
    (eviction_policy : String) (duration_hours : ℚ) : List Sample :=
  (timestamps duration_hours).map fun t =>
    let ck := nextKeys avg_object_size tps ttl eviction_policy initial_keys initial_keys t
    ⟨t / 3600, calculate_memory avg_object_size ck⟩

/-- Source function `RedisCalculator.analyze_memory_trend` from `src/calculator.py`.
The failure modes — indexing an empty frame, or the first sample's memory
being zero so that the percent-change division is undefined (spec §7
DivisionByZero) — are modelled as `none`. -/
def analyze_memory_trend (df : List Sample) : Option (String × ℚ) :=
  match df.head?, df.getLast? with
  | some s0, some sl =>
    if s0.memory = 0 then none
    else
      let percent_change := (sl.memory - s0.memory) / s0.memory * 100
      if |percent_change| < 1 then some ("stable", percent_change)
      else if percent_change > 0 then some ("growing", percent_change)
      else some ("shrinking", percent_change)
  | _, _ => none

/-- With policy `"noeviction"` the loop body never reads the carried
`current_keys`. -/
lemma nextKeys_noeviction (s tps ttl I ck ck2 t : ℚ) :
    nextKeys s tps ttl "noeviction" I ck t = nextKeys s tps ttl "noeviction" I ck2 t := by
  simp [nextKeys]

/-- The loop body always returns a nonnegative key count (final clamp). -/
lemma nextKeys_nonneg (s tps ttl : ℚ) (p : String) (I ck t : ℚ) :
    0 ≤ nextKeys s tps ttl p I ck t := by
  simp only [nextKeys]
  exact le_max_left 0 _

/-- Lower bound: `calculate_memory` is at least `BASE_MEMORY` on nonnegative inputs. -/
lemma base_le_calculate_memory (s c : ℚ) (hs : 0 ≤ s) (hc : 0 ≤ c) :
    BASE_MEMORY ≤ calculate_memory s c := by
  have h1 : 0 ≤ s * c := mul_nonneg hs hc
  have h2 : 0 ≤ MEMORY_OVERHEAD_PER_KEY * c := by
    have h : (0:ℚ) ≤ MEMORY_OVERHEAD_PER_KEY := by norm_num [MEMORY_OVERHEAD_PER_KEY]
    exact mul_nonneg h hc
  simp only [calculate_memory]
  linarith

/-- Every sample the loop emits records `calculate_memory s c` for some
nonnegative key count `c`. -/
lemma simLoop_memory_shape (s tps ttl : ℚ) (p : String) (I : ℚ) :
    ∀ (ts : List ℚ) (ck : ℚ) (x : Sample), x ∈ simLoop s tps ttl p I ck ts →
      ∃ c : ℚ, 0 ≤ c ∧ x.memory = calculate_memory s c
  | [], ck, x, hx => by simp [simLoop] at hx
  | t :: ts, ck, x, hx => by
    simp only [simLoop] at hx
    rcases List.mem_cons.mp hx with h | h
    · exact ⟨nextKeys s tps ttl p I ck t, nextKeys_nonneg s tps ttl p I ck t, by rw [h]⟩
    · exact simLoop_memory_shape s tps ttl p I ts _ x h

/-- The timestamps the loop emits are the input timestamps divided by 3600. -/
lemma simLoop_map_timestamp (s tps ttl : ℚ) (p : String) (I : ℚ) :
    ∀ (ts : List ℚ) (ck : ℚ),
      (simLoop s tps ttl p I ck ts).map Sample.timestamp = ts.map (· / 3600)
  | [], _ => rfl
  | t :: ts, ck => by
    simp only [simLoop, List.map_cons]
    exact congrArg (List.cons _) (simLoop_map_timestamp s tps ttl p I ts _)

/-- The loop emits one sample per timestamp. -/
lemma simLoop_length (s tps ttl : ℚ) (p : String) (I : ℚ) :
    ∀ (ts : List ℚ) (ck : ℚ), (simLoop s tps ttl p I ck ts).length = ts.length
  | [], _ => rfl
  | t :: ts, ck => by
    simp only [simLoop, List.length_cons, simLoop_length s tps ttl p I ts]

/-- With policy `"noeviction"` the sequential loop is a pure map over the
timestamps, whatever `current_keys` it starts from. -/
lemma simLoop_noeviction (s tps ttl I : ℚ) :
    ∀ (ts : List ℚ) (ck : ℚ),
      simLoop s tps ttl "noeviction" I ck ts =
        ts.map fun t =>
          ⟨t / 3600, calculate_memory s (nextKeys s tps ttl "noeviction" I I t)⟩
  | [], _ => rfl
  | t :: ts, ck => by
    simp only [simLoop, List.map_cons]
    refine congrArg₂ List.cons ?_ (simLoop_noeviction s tps ttl I ts _)
    rw [nextKeys_noeviction s tps ttl I ck I t]

/-- C4: `calculate_memory` is the linear formula
`avg_object_size * num_keys + 150 * num_keys + 50 * 1024 * 1024`, is
monotonically non-decreasing in both arguments on nonnegative inputs, and
`calculate_memory 0 0 = BASE_MEMORY`. -/
theorem calculate_memory_formula_monotone (s k s2 k2 : ℚ)
    (hs : 0 ≤ s) (hk : 0 ≤ k) (hs2 : s ≤ s2) (hk2 : k ≤ k2) :
    calculate_memory s k = s * k + 150 * k + 50 * 1024 * 1024 ∧
    calculate_memory s k ≤ calculate_memory s2 k2 ∧
    calculate_memory 0 0 = BASE_MEMORY := by
  refine ⟨rfl, ?_, by norm_num [calculate_memory, BASE_MEMORY]⟩
  have h1 : s * k ≤ s2 * k2 :=
    mul_le_mul hs2 hk2 hk (le_trans hs hs2)
  have h2 : MEMORY_OVERHEAD_PER_KEY * k ≤ MEMORY_OVERHEAD_PER_KEY * k2 := by
    have : (0:ℚ) ≤ MEMORY_OVERHEAD_PER_KEY := by norm_num [MEMORY_OVERHEAD_PER_KEY]
    exact mul_le_mul_of_nonneg_left hk2 this
  simp only [calculate_memory]
  linarith

/-- Witness for C4 at `s = 3, k = 5, s2 = 4, k2 = 7`. -/
theorem calculate_memory_formula_monotone_witness :
    ((0:ℚ) ≤ 3 ∧ (0:ℚ) ≤ 5 ∧ (3:ℚ) ≤ 4 ∧ (5:ℚ) ≤ 7) ∧
    (calculate_memory 3 5 = 3 * 5 + 150 * 5 + 50 * 1024 * 1024 ∧
      calculate_memory 3 5 ≤ calculate_memory 4 7 ∧
      calculate_memory 0 0 = BASE_MEMORY) :=
  ⟨by norm_num,
    calculate_memory_formula_monotone 3 5 4 7 (by norm_num) (by norm_num)
      (by norm_num) (by norm_num)⟩

/-- C6: `calculate_cpu_cores` equals
`max 1 (max (ceil (num_keys / 1000000)) (ceil (tps / 50000)))` with the tps
term equal to `0` when `tps = 0`; the three boundary examples hold, and the
result is always an integer `≥ 1`. -/
theorem calculate_cpu_cores_spec (k t : ℚ) (hk : 0 ≤ k) (ht : 0 ≤ t) :
    calculate_cpu_cores k t =
      max 1 (max ⌈k / 1000000⌉ (if t = 0 then 0 else ⌈t / 50000⌉)) ∧
    calculate_cpu_cores 1000000 0 = 1 ∧
    calculate_cpu_cores 1000001 0 = 2 ∧
    calculate_cpu_cores 1 100000 = 2 ∧
    1 ≤ calculate_cpu_cores k t := by
  have hform : ∀ k2 t2 : ℚ, calculate_cpu_cores k2 t2 =
      max 1 (max ⌈k2 / 1000000⌉ (if t2 = 0 then 0 else ⌈t2 / 50000⌉)) := by
    intro k2 t2
    by_cases h : t2 = 0 <;>
      simp [calculate_cpu_cores, MAX_KEYS_PER_CPU_CORE, h]
  have c1 : ⌈(1000000 : ℚ) / 1000000⌉ = 1 := Int.ceil_eq_iff.mpr (by norm_num)
  have c2 : ⌈(1000001 : ℚ) / 1000000⌉ = 2 := Int.ceil_eq_iff.mpr (by norm_num)
  have c3 : ⌈(1 : ℚ) / 1000000⌉ = 1 := Int.ceil_eq_iff.mpr (by norm_num)
  have c4 : ⌈(100000 : ℚ) / 50000⌉ = 2 := Int.ceil_eq_iff.mpr (by norm_num)
  refine ⟨hform k t, ?_, ?_, ?_, ?_⟩
  · rw [hform, c1]; norm_num
  · rw [hform, c2]; norm_num
  · rw [hform, c3, if_neg (by norm_num : ¬ (100000 : ℚ) = 0), c4]; norm_num
  · rw [hform]; exact le_max_left 1 _

/-- Witness for C6 at `k = 0, t = 0`. -/
theorem calculate_cpu_cores_spec_witness :
    ((0:ℚ) ≤ 0 ∧ (0:ℚ) ≤ 0) ∧
    (calculate_cpu_cores 0 0 =
        max 1 (max ⌈(0:ℚ) / 1000000⌉ (if (0:ℚ) = 0 then 0 else ⌈(0:ℚ) / 50000⌉)) ∧
      calculate_cpu_cores 1000000 0 = 1 ∧
      calculate_cpu_cores 1000001 0 = 2 ∧
      calculate_cpu_cores 1 100000 = 2 ∧
      1 ≤ calculate_cpu_cores 0 0) :=
  ⟨by norm_num, calculate_cpu_cores_spec 0 0 le_rfl le_rfl⟩

/-- C9: `format_memory_size` selects the unit by repeated division by 1024
and renders with two decimals: `1023 ↦ "1023.00 B"`, `1024 ↦ "1.00 KB"`,
`1024 ^ 4 ↦ "1.00 TB"`. -/
theorem format_memory_size_boundaries :
    format_memory_size 1023 = "1023.00 B" ∧
    format_memory_size 1024 = "1.00 KB" ∧
    format_memory_size (1024 ^ 4) = "1.00 TB" := by
  have stepStop : ∀ (u : String) (us : List String) (b : ℚ), b < 1024 →
      format_memory_size_aux (u :: us) b = fmt2 b ++ " " ++ u := by
    intro u us b h
    simp only [format_memory_size_aux, if_pos h]
  have stepGo : ∀ (u : String) (us : List String) (b : ℚ), ¬ b < 1024 →
      format_memory_size_aux (u :: us) b = format_memory_size_aux us (b / 1024) := by
    intro u us b h
    simp only [format_memory_size_aux, if_neg h]
  have hr1023 : round ((1023 : ℚ) * 100) = 102300 := by rw [round_eq]; norm_num
  have hr1 : round ((1 : ℚ) * 100) = 100 := by rw [round_eq]; norm_num
  have f1023 : fmt2 1023 = "1023.00" := by
    simp only [fmt2, hr1023]; decide
  have f1 : fmt2 1 = "1.00" := by
    simp only [fmt2, hr1]; decide
  refine ⟨?_, ?_, ?_⟩
  · rw [format_memory_size, stepStop _ _ _ (by norm_num), f1023]; decide
  · rw [format_memory_size, stepGo _ _ _ (by norm_num),
      show (1024 : ℚ) / 1024 = 1 by norm_num,
      stepStop _ _ _ (by norm_num), f1]
    decide
  · rw [format_memory_size, stepGo _ _ _ (by norm_num),
      show (1024 : ℚ) ^ 4 / 1024 = 1024 ^ 3 by norm_num,
      stepGo _ _ _ (by norm_num),
      show (1024 : ℚ) ^ 3 / 1024 = 1024 ^ 2 by norm_num,
      stepGo _ _ _ (by norm_num),
      show (1024 : ℚ) ^ 2 / 1024 = 1024 by norm_num,
      stepGo _ _ _ (by norm_num),
      show (1024 : ℚ) / 1024 = 1 by norm_num,
      stepStop _ _ _ (by norm_num), f1]
    decide

/-- C1 (amended): with `eviction_policy = "noeviction"` — the only case in
which the loop body never reads the carried `current_keys` — the sequential
loop produces the same series as 100 independent per-timestamp evaluations
in which `current_keys` equals `initial_keys`.  (For evicting policies the
two disagree; see the counterexample.) -/
theorem simulate_noeviction_eq_indep (s I tps ttl D : ℚ) :
    simulate_memory_usage s I tps ttl "noeviction" D =
      simulate_memory_usage_indep s I tps ttl "noeviction" D := by
  rw [simulate_memory_usage, simulate_memory_usage_indep]
  exact simLoop_noeviction s tps ttl I (timestamps D) I

/-- C1 counterexample: at `avg_object_size = 1`, `initial_keys = 629145600`,
`tps = 0`, `ttl = 0`, policy `"allkeys-lru"`, duration 99 hours, the
sequential loop and the independent per-timestamp evaluation disagree at
the second sample.  Sequentially, the first iteration evicts down to
`0.8 * initial_keys = 503316480` keys, whose data size is back under the
`10 * BASE_MEMORY` threshold, so the second iteration rebounds to
`initial_keys`; evaluated independently, eviction fires at every timestamp. -/
theorem simulate_seq_indep_counterexample :
    simulate_memory_usage 1 629145600 0 0 "allkeys-lru" 99 ≠
      simulate_memory_usage_indep 1 629145600 0 0 "allkeys-lru" 99 := by
  have hne : ("allkeys-lru" : String) ≠ "noeviction" := by decide
  have hsw : strStartsWith "allkeys-lru" "allkeys" = true := by decide
  have hA : ∀ t : ℚ, nextKeys 1 0 0 "allkeys-lru" 629145600 629145600 t = 503316480 := by
    intro t
    simp only [nextKeys, hsw]
    norm_num [hne, BASE_MEMORY, max_def]
  have hB : ∀ t : ℚ, nextKeys 1 0 0 "allkeys-lru" 629145600 503316480 t = 629145600 := by
    intro t
    simp only [nextKeys, hsw]
    norm_num [hne, BASE_MEMORY, max_def]
  have hrange : List.range 100 = 0 :: 1 :: List.range' 2 98 := by decide
  intro heq
  have h1 : ((simulate_memory_usage 1 629145600 0 0 "allkeys-lru" 99).map
      Sample.memory).getD 1 0 = calculate_memory 1 629145600 := by
    rw [simulate_memory_usage, timestamps, hrange, List.map_cons, List.map_cons]
    simp only [simLoop]
    rw [hA, hB]
    simp [List.getD]
  have h2 : ((simulate_memory_usage_indep 1 629145600 0 0 "allkeys-lru" 99).map
      Sample.memory).getD 1 0 = calculate_memory 1 503316480 := by
    rw [simulate_memory_usage_indep, timestamps, hrange]
    simp only [List.map_cons]
    rw [hA, hA]
    simp [List.getD]
  rw [heq] at h1
  rw [h1] at h2
  norm_num [calculate_memory, MEMORY_OVERHEAD_PER_KEY, BASE_MEMORY] at h2

/-- In the growth-free case (`tps = 0`, `ttl = 0`, `"noeviction"`) the loop
body fixes the key count at `initial_keys`. -/
lemma nextKeys_growth_free (s I ck t : ℚ) (hI : 0 ≤ I) :
    nextKeys s 0 0 "noeviction" I ck t = I := by
  simp [nextKeys]
  exact hI

/-- In the growth-free case every emitted sample has the initial memory. -/
lemma simLoop_growth_free (s I : ℚ) (hI : 0 ≤ I) :
    ∀ (ts : List ℚ) (ck : ℚ) (x : Sample), x ∈ simLoop s 0 0 "noeviction" I ck ts →
      x.memory = calculate_memory s I
  | [], _, x, hx => by simp [simLoop] at hx
  | t :: ts, ck, x, hx => by
    simp only [simLoop] at hx
    rcases List.mem_cons.mp hx with h | h
    · rw [h]
      show calculate_memory s (nextKeys s 0 0 "noeviction" I ck t) = calculate_memory s I
      rw [nextKeys_growth_free s I ck t hI]
    · exact simLoop_growth_free s I hI ts _ x h

/-- C2: with `tps = 0`, `ttl = 0` and `eviction_policy = "noeviction"` the
simulated series is constant at `calculate_memory avg_object_size
initial_keys`; and with any nonnegative inputs no memory value in the
series is negative. -/
theorem simulate_growth_free_constant_nonneg (s I tps ttl D : ℚ) (p : String)
    (hs : 0 ≤ s) (hI : 0 ≤ I) (htps : 0 ≤ tps) (httl : 0 ≤ ttl) :
    (∀ x ∈ simulate_memory_usage s I 0 0 "noeviction" D,
      x.memory = calculate_memory s I) ∧
    (∀ x ∈ simulate_memory_usage s I tps ttl p D, 0 ≤ x.memory) := by
  constructor
  · intro x hx
    exact simLoop_growth_free s I hI _ _ x hx
  · intro x hx
    obtain ⟨c, hc, hmem⟩ := simLoop_memory_shape s tps ttl p I _ _ x hx
    have hbase := base_le_calculate_memory s c hs hc
    have hpos : (0:ℚ) < BASE_MEMORY := by norm_num [BASE_MEMORY]
    rw [hmem]
    linarith

/-- Witness for C2 at `s = 2, I = 5, tps = 7, ttl = 11, D = 24, p = "allkeys-lru"`. -/
theorem simulate_growth_free_constant_nonneg_witness :
    ((0:ℚ) ≤ 2 ∧ (0:ℚ) ≤ 5 ∧ (0:ℚ) ≤ 7 ∧ (0:ℚ) ≤ 11) ∧
    ((∀ x ∈ simulate_memory_usage 2 5 0 0 "noeviction" 24,
        x.memory = calculate_memory 2 5) ∧
      (∀ x ∈ simulate_memory_usage 2 5 7 11 "allkeys-lru" 24, 0 ≤ x.memory)) :=
  ⟨by norm_num,
    simulate_growth_free_constant_nonneg 2 5 7 11 24 "allkeys-lru"
      (by norm_num) (by norm_num) (by norm_num) (by norm_num)⟩

/-- C3: for every input the simulated series has exactly 100 samples, whose
timestamps (hours) are `i * duration_hours / 99` for `i = 0, …, 99` —
equally spaced over `[0, duration_hours]` — with first timestamp `0` and
last timestamp `duration_hours`. -/
theorem simulate_samples_shape (s I tps ttl : ℚ) (p : String) (D : ℚ) :
    (simulate_memory_usage s I tps ttl p D).length = 100 ∧
    (simulate_memory_usage s I tps ttl p D).map Sample.timestamp =
      (List.range 100).map (fun i : ℕ => (i : ℚ) * D / 99) ∧
    ((simulate_memory_usage s I tps ttl p D).map Sample.timestamp).head? = some 0 ∧
    ((simulate_memory_usage s I tps ttl p D).map Sample.timestamp).getLast? = some D := by
  have hmap : (simulate_memory_usage s I tps ttl p D).map Sample.timestamp =
      (List.range 100).map (fun i : ℕ => (i : ℚ) * D / 99) := by
    rw [simulate_memory_usage, simLoop_map_timestamp, timestamps, List.map_map]
    refine List.map_congr_left ?_
    intro i _
    show ((i:ℚ) * (D * 3600) / 99) / 3600 = (i:ℚ) * D / 99
    ring
  refine ⟨?_, hmap, ?_, ?_⟩
  · rw [simulate_memory_usage, simLoop_length, timestamps, List.length_map,
      List.length_range]
  · rw [hmap, List.head?_map, show (List.range 100).head? = some 0 by decide]
    simp
  · rw [hmap, List.getLast?_map, show (List.range 100).getLast? = some 99 by decide]
    simp only [Option.map_some']
    congr 1
    push_cast
    ring

/-- C5: `analyze_memory_trend` returns
`percent_change = (last.memory - first.memory) / first.memory * 100` and
classifies the trend as stable when `|percent_change| < 1`, else growing
when positive, else shrinking; a flat series yields `("stable", 0)`. -/
theorem analyze_memory_trend_spec (df : List Sample) (s0 sl : Sample)
    (h0 : df.head? = some s0) (hl : df.getLast? = some sl)
    (hne : s0.memory ≠ 0) :
    analyze_memory_trend df =
      some (if |(sl.memory - s0.memory) / s0.memory * 100| < 1 then "stable"
            else if (sl.memory - s0.memory) / s0.memory * 100 > 0 then "growing"
            else "shrinking",
        (sl.memory - s0.memory) / s0.memory * 100) ∧
    (sl.memory = s0.memory → analyze_memory_trend df = some ("stable", 0)) := by
  constructor
  · simp only [analyze_memory_trend, h0, hl, if_neg hne]
    split_ifs <;> rfl
  · intro hflat
    simp only [analyze_memory_trend, h0, hl, if_neg hne, hflat]
    norm_num

/-- Witness for C5 on the two-sample series `[(0, 100), (1, 150)]`. -/
theorem analyze_memory_trend_spec_witness :
    (([⟨0, 100⟩, ⟨1, 150⟩] : List Sample).head? = some ⟨0, 100⟩ ∧
      ([⟨0, 100⟩, ⟨1, 150⟩] : List Sample).getLast? = some ⟨1, 150⟩ ∧
      (Sample.mk 0 100).memory ≠ 0) ∧
    (analyze_memory_trend [⟨0, 100⟩, ⟨1, 150⟩] =
        some (if |((Sample.mk 1 150).memory - (Sample.mk 0 100).memory) /
                (Sample.mk 0 100).memory * 100| < 1 then "stable"
              else if ((Sample.mk 1 150).memory - (Sample.mk 0 100).memory) /
                (Sample.mk 0 100).memory * 100 > 0 then "growing"
              else "shrinking",
          ((Sample.mk 1 150).memory - (Sample.mk 0 100).memory) /
            (Sample.mk 0 100).memory * 100) ∧
      ((Sample.mk 1 150).memory = (Sample.mk 0 100).memory →
        analyze_memory_trend [⟨0, 100⟩, ⟨1, 150⟩] = some ("stable", 0))) :=
  ⟨⟨rfl, rfl, by norm_num⟩,
    analyze_memory_trend_spec [⟨0, 100⟩, ⟨1, 150⟩] ⟨0, 100⟩ ⟨1, 150⟩ rfl rfl
      (by norm_num)⟩

/-- C10: with nonnegative inputs every simulated memory value is at least
`BASE_MEMORY`; in particular the first sample's memory is strictly
positive, and `analyze_memory_trend` applied to a simulated series never
hits its division-by-zero failure (it returns `some`). -/
theorem simulate_memory_safety (s I tps ttl : ℚ) (p : String) (D : ℚ)
    (hs : 0 ≤ s) (hI : 0 ≤ I) (htps : 0 ≤ tps) (httl : 0 ≤ ttl) :
    (∀ x ∈ simulate_memory_usage s I tps ttl p D, BASE_MEMORY ≤ x.memory) ∧
    (∃ x0, (simulate_memory_usage s I tps ttl p D).head? = some x0 ∧
      0 < x0.memory) ∧
    (∃ r, analyze_memory_trend (simulate_memory_usage s I tps ttl p D) = some r) := by
  have hpos : (0:ℚ) < BASE_MEMORY := by norm_num [BASE_MEMORY]
  have hmem : ∀ x ∈ simulate_memory_usage s I tps ttl p D, BASE_MEMORY ≤ x.memory := by
    intro x hx
    obtain ⟨c, hc, he⟩ := simLoop_memory_shape s tps ttl p I _ _ x hx
    rw [he]
    exact base_le_calculate_memory s c hs hc
  have hlen : (simulate_memory_usage s I tps ttl p D).length = 100 := by
    rw [simulate_memory_usage, simLoop_length, timestamps, List.length_map,
      List.length_range]
  obtain ⟨x0, l0, hcons⟩ : ∃ x0 l0, simulate_memory_usage s I tps ttl p D = x0 :: l0 := by
    cases hsim : simulate_memory_usage s I tps ttl p D with
    | nil => rw [hsim] at hlen; simp at hlen
    | cons a l => exact ⟨a, l, rfl⟩
  have h0 : (simulate_memory_usage s I tps ttl p D).head? = some x0 := by
    rw [hcons]; rfl
  have hx0mem : BASE_MEMORY ≤ x0.memory :=
    hmem x0 (by rw [hcons]; exact List.mem_cons_self x0 l0)
  have hx0pos : 0 < x0.memory := lt_of_lt_of_le hpos hx0mem
  obtain ⟨xl, hlast⟩ : ∃ xl, (simulate_memory_usage s I tps ttl p D).getLast? = some xl := by
    rw [hcons]
    exact ⟨(x0 :: l0).getLast (by simp), List.getLast?_eq_getLast _ (by simp)⟩
  refine ⟨hmem, ⟨x0, h0, hx0pos⟩, ?_⟩
  simp only [analyze_memory_trend, h0, hlast, if_neg (ne_of_gt hx0pos)]
  split_ifs <;> exact ⟨_, rfl⟩

/-- Witness for C10 at `s = 3, I = 4, tps = 5, ttl = 6, D = 24, p = "volatile-lru"`. -/
theorem simulate_memory_safety_witness :
    ((0:ℚ) ≤ 3 ∧ (0:ℚ) ≤ 4 ∧ (0:ℚ) ≤ 5 ∧ (0:ℚ) ≤ 6) ∧
    ((∀ x ∈ simulate_memory_usage 3 4 5 6 "volatile-lru" 24,
        BASE_MEMORY ≤ x.memory) ∧
      (∃ x0, (simulate_memory_usage 3 4 5 6 "volatile-lru" 24).head? = some x0 ∧
        0 < x0.memory) ∧
      (∃ r, analyze_memory_trend (simulate_memory_usage 3 4 5 6 "volatile-lru" 24) =
        some r)) :=
  ⟨by norm_num,
    simulate_memory_safety 3 4 5 6 "volatile-lru" 24
      (by norm_num) (by norm_num) (by norm_num) (by norm_num)⟩

/-- The guarded load factor coincides with the unguarded log term: at
`tps = 0` the guard yields `0`, and so does `log2 (max 1 (0 / 1000))`. -/
lemma load_factor_eq (t : ℝ) :
    (if t ≠ 0 then Real.logb 2 (max 1 (t / 1000)) else 0) =
      Real.logb 2 (max 1 (t / 1000)) := by
  by_cases ht : t = 0
  · subst ht
    rw [if_neg (by simp), show max (1:ℝ) (0 / 1000) = 1 by norm_num, Real.logb_one]
  · rw [if_pos ht]

/-- The guarded load factor is nonnegative. -/
lemma load_factor_nonneg (t : ℝ) :
    0 ≤ (if t ≠ 0 then Real.logb 2 (max 1 (t / 1000)) else 0) := by
  by_cases ht : t = 0
  · simp [ht]
  · rw [if_pos ht]
    exact Real.logb_nonneg (by norm_num) (le_max_left 1 _)

/-- Monotonicity: `log2` composed with the floor-at-1 is monotone. -/
lemma logb_max_mono (a b : ℝ) (hab : a ≤ b) :
    Real.logb 2 (max 1 a) ≤ Real.logb 2 (max 1 b) :=
  Real.logb_le_logb_of_le (by norm_num)
    (lt_of_lt_of_le zero_lt_one (le_max_left 1 a)) (max_le_max le_rfl hab)

/-- C7: `calculate_latency` equals
`0.2 + 0.1 * log2 (max 1 (size / 1024)) + 0.2 * log2 (max 1 (tps / 1000))
+ 0.1 * log2 (max 1 (keys / 100000))`, and at `tps = 0` the tps term is
`0`, leaving only the size and keys terms. -/
theorem calculate_latency_formula (s k t : ℝ) :
    calculate_latency s k t =
      0.2 + 0.1 * Real.logb 2 (max 1 (s / 1024)) +
        0.2 * Real.logb 2 (max 1 (t / 1000)) +
        0.1 * Real.logb 2 (max 1 (k / 100000)) ∧
    calculate_latency s k 0 =
      0.2 + 0.1 * Real.logb 2 (max 1 (s / 1024)) +
        0.1 * Real.logb 2 (max 1 (k / 100000)) := by
  constructor
  · simp only [calculate_latency, BASE_LATENCY]
    rw [load_factor_eq]
  · simp only [calculate_latency, BASE_LATENCY,
      if_neg (by norm_num : ¬ (0:ℝ) ≠ 0)]
    ring

/-- C8: `calculate_latency` is monotonically non-decreasing in each of its
three arguments on nonnegative inputs, and — every log term being floored
at argument 1 and hence nonnegative — the latency is always at least the
base latency `0.2`. -/
theorem calculate_latency_monotone_nonneg (s k t s2 k2 t2 : ℝ)
    (hs : 0 ≤ s) (hk : 0 ≤ k) (ht : 0 ≤ t)
    (hs2 : s ≤ s2) (hk2 : k ≤ k2) (ht2 : t ≤ t2) :
    calculate_latency s k t ≤ calculate_latency s2 k2 t2 ∧
    0.2 ≤ calculate_latency s k t := by
  have hsize : Real.logb 2 (max 1 (s / 1024)) ≤ Real.logb 2 (max 1 (s2 / 1024)) :=
    logb_max_mono _ _ (by linarith)
  have hkeys : Real.logb 2 (max 1 (k / 100000)) ≤ Real.logb 2 (max 1 (k2 / 100000)) :=
    logb_max_mono _ _ (by linarith)
  have hload : (if t ≠ 0 then Real.logb 2 (max 1 (t / 1000)) else 0) ≤
      (if t2 ≠ 0 then Real.logb 2 (max 1 (t2 / 1000)) else 0) := by
    by_cases h1 : t = 0
    · rw [if_neg (by simp [h1])]
      exact load_factor_nonneg t2
    · have hpos : 0 < t := lt_of_le_of_ne ht (Ne.symm h1)
      have h2 : t2 ≠ 0 := ne_of_gt (lt_of_lt_of_le hpos ht2)
      rw [if_pos h1, if_pos h2]
      exact logb_max_mono _ _ (by linarith)
  have hsz0 : 0 ≤ Real.logb 2 (max 1 (s / 1024)) :=
    Real.logb_nonneg (by norm_num) (le_max_left 1 _)
  have hk0 : 0 ≤ Real.logb 2 (max 1 (k / 100000)) :=
    Real.logb_nonneg (by norm_num) (le_max_left 1 _)
  have hl0 := load_factor_nonneg t
  constructor
  · simp only [calculate_latency, BASE_LATENCY]
    linarith [hsize, hkeys, hload]
  · simp only [calculate_latency, BASE_LATENCY]
    linarith [hsz0, hk0, hl0]

/-- Witness for C8 at `(0, 0, 0) ≤ (2048, 200000, 2000)`. -/
theorem calculate_latency_monotone_nonneg_witness :
    ((0:ℝ) ≤ 0 ∧ (0:ℝ) ≤ 0 ∧ (0:ℝ) ≤ 0 ∧
      (0:ℝ) ≤ 2048 ∧ (0:ℝ) ≤ 200000 ∧ (0:ℝ) ≤ 2000) ∧
    (calculate_latency 0 0 0 ≤ calculate_latency 2048 200000 2000 ∧
      0.2 ≤ calculate_latency 0 0 0) :=
  ⟨by norm_num,
    calculate_latency_monotone_nonneg 0 0 0 2048 200000 2000
      le_rfl le_rfl le_rfl (by norm_num) (by norm_num) (by norm_num)⟩

end RedisCalculator
